import Mathlib

/-!
Shallow embedding of `src/main.js` (client-side form handling, persistence
and mobile-navigation logic of a small business website).

Conventions of the embedding:
* JS strings are Lean `String`s (a JS string's `.length` is modelled by the
  character count, which agrees with UTF-16 code-unit count on the BMP
  characters these forms use);
* `String.prototype.trim` is `jsTrim`, dropping the JS `\s` class from both
  ends;
* a DOM field is a `FormField` record carrying exactly the attributes
  `validateField` reads (`name`, `value`, `required`, `type`, `tagName`)
  plus `defaultValue`, which `form.reset()` restores;
* `localStorage` under the single key `contactFormData` is an
  `Option Snapshot`, where a `Snapshot` is the JSON object as an ordered
  association list (JSON.stringify/JSON.parse round-trip the object
  verbatim, so serialization is elided);
* the one `fetch` call is modelled by a `Request` value (what is sent) and
  a `FetchOutcome` (what comes back: a response with a status, or a
  network-level rejection).
-/

/-- The JavaScript `\s` character class (whitespace as used by both
`String.prototype.trim` and the `\s` of the email regex). -/
def isJsSpace (c : Char) : Bool :=
  c = ' ' || c = '\t' || c = '\n' || c = '\r' ||
  c.val = 0x0b || c.val = 0x0c || c.val = 0xa0 || c.val = 0x1680 ||
  (0x2000 ≤ c.val && c.val ≤ 0x200a) || c.val = 0x2028 || c.val = 0x2029 ||
  c.val = 0x202f || c.val = 0x205f || c.val = 0x3000 || c.val = 0xfeff

/-- `String.prototype.trim` on the character list. -/
def jsTrimList (l : List Char) : List Char :=
  ((l.dropWhile isJsSpace).reverse.dropWhile isJsSpace).reverse

/-- JS `s.trim()`. -/
def jsTrim (s : String) : String :=
  String.mk (jsTrimList s.data)

/-- A character admitted by the regex class `[^\s@]`. -/
def okChar (c : Char) : Bool :=
  !(isJsSpace c) && c ≠ '@'

/-- Split a character list at the first occurrence of `c`: the prefix
before it (which does not contain `c`) and the suffix after it. -/
def breakAt (c : Char) : List Char → Option (List Char × List Char)
  | [] => none
  | x :: xs =>
      if x = c then some ([], xs)
      else (breakAt c xs).map (fun p => (x :: p.1, p.2))

/-- Whether a list has a `.` that is neither its first nor its last
element (the `[^\s@]+\.[^\s@]+` suffix of the regex needs at least one
character on each side of some dot). -/
def hasInnerDot : List Char → Bool
  | [] => false
  | [_] => false
  | _ :: c :: rest => (c = '.' && rest ≠ []) || hasInnerDot (c :: rest)

/-- The test `/^[^\s@]+@[^\s@]+\.[^\s@]+$/.test s` of `validateField`
(src/main.js line 161).  Since `[^\s@]` excludes `@`, the regex consumes
everything up to the first `@` as the local part, and the rest must be
`@`-free, whitespace-free, and contain an inner dot. -/
def emailRegexTest (s : String) : Bool :=
  match breakAt '@' s.data with
  | none => false
  | some (localPart, domain) =>
      localPart ≠ [] && localPart.all okChar && domain.all okChar &&
        hasInnerDot domain

/-- The `localpart@domain.tld` shape the spec describes: the string splits
into three nonempty runs of non-whitespace, non-`@` characters around one
`@` and a later `.`. -/
def IsEmailShape (s : String) : Prop :=
  ∃ a b c : List Char,
    a ≠ [] ∧ b ≠ [] ∧ c ≠ [] ∧
    (∀ ch ∈ a, okChar ch = true) ∧ (∀ ch ∈ b, okChar ch = true) ∧
    (∀ ch ∈ c, okChar ch = true) ∧
    s.data = a ++ '@' :: (b ++ '.' :: c)

/-- A form field (named FormField since Mathlib takes the name Field), carrying what `validateField`, `FormData`, persistence
and `form.reset()` read: the `name` and current `value`, the `required`
attribute, the `type` property, the `tagName`, and the `defaultValue`
that `reset()` restores. -/
structure FormField where
  name : String
  value : String
  required : Bool
  type : String
  tagName : String
  defaultValue : String
deriving DecidableEq, Repr

/-- Result of `validateField`: the returned `isValid` and the
`errorMessage` local it built. -/
structure ValidationResult where
  isValid : Bool
  errorMessage : String
deriving DecidableEq, Repr

/-- `validateField` (src/main.js lines 147-176): trims the value, then runs
the required / email / textarea-length checks in order, each failing check
overwriting `isValid`/`errorMessage`. -/
def validateField (field : FormField) : ValidationResult :=
  let value := jsTrim field.value
  let r0 : ValidationResult := ⟨true, ""⟩
  let r1 := if field.required = true ∧ value = "" then
      (⟨false, "This field is required."⟩ : ValidationResult) else r0
  let r2 := if field.type = "email" ∧ value ≠ "" ∧ emailRegexTest value = false then
      (⟨false, "Please enter a valid email address."⟩ : ValidationResult) else r1
  if field.tagName = "TEXTAREA" ∧ value ≠ "" ∧ value.length < 10 then
      (⟨false, "Please provide more details (at least 10 characters)."⟩ : ValidationResult)
    else r2

/-- The message `showFieldError` receives for a field after
`validateField` runs on it (src/main.js line 174):
`isValid ? '' : errorMessage`. -/
def displayedMessage (field : FormField) : String :=
  if (validateField field).isValid then "" else (validateField field).errorMessage

/-- `validateForm` (src/main.js lines 178-188): visits every field (no
short-circuit), clearing `isFormValid` on each failure; the second
component records the per-field displayed messages, one entry per field in
order, produced by the `showFieldError` call inside each `validateField`. -/
def validateForm (fields : List FormField) : Bool × List String :=
  fields.foldl
    (fun acc field =>
      ((if (validateField field).isValid then acc.1 else false),
       acc.2 ++ [displayedMessage field]))
    (true, [])

/-! ## Form persistence (src/main.js lines 267-313) -/

/-- The JSON object stored under the key `contactFormData`: an ordered
association list of field name to saved value, matching a JS object with
string keys (insertion order, at most one entry per key). -/
abbrev Snapshot : Type := List (String × String)

/-- JS object assignment `obj[k] = v`: replace the value at an existing
key in place, otherwise append the new key at the end. -/
def objSet : List (String × String) → String → String → List (String × String)
  | [], k, v => [(k, v)]
  | p :: rest, k, v => if p.1 = k then (k, v) :: rest else p :: objSet rest k v

/-- JS property read `obj[k]`: `some` value if the key is present. -/
def objGet : List (String × String) → String → Option String
  | [], _ => none
  | p :: rest, k => if p.1 = k then some p.2 else objGet rest k

/-- One iteration of `saveFormData`'s forEach (src/main.js lines
280-284): `if (input.value.trim()) formData[input.name] = input.value`. -/
def saveStep (acc : Snapshot) (f : FormField) : Snapshot :=
  if jsTrim f.value ≠ "" then objSet acc f.name f.value else acc

/-- The `formData` object built by `saveFormData` (src/main.js lines
279-284): for each input in order, if the trimmed value is nonempty, store
the raw (untrimmed) value under the input's name. -/
def computeFormData (fields : List FormField) : Snapshot :=
  fields.foldl saveStep []

/-- `saveFormData` (src/main.js lines 278-289) acting on the stored value:
writes the recomputed object only when it has at least one key, otherwise
leaves storage as it was (no write occurs). -/
def saveFormData (fields : List FormField) (storage : Option Snapshot) : Option Snapshot :=
  let formData := computeFormData fields
  if formData.length > 0 then some formData else storage

/-- One input's update inside `loadFormData`'s forEach (src/main.js lines
296-300): `if (formData[input.name]) input.value = formData[input.name]`
— the stored string must be present and truthy (nonempty) to be written. -/
def restoreField (formData : Snapshot) (f : FormField) : FormField :=
  match objGet formData f.name with
  | some v => if v ≠ "" then { f with value := v } else f
  | none => f

/-- `loadFormData` (src/main.js lines 291-305): with no stored record the
fields are untouched; otherwise each field whose name maps to a truthy
stored value receives that value. -/
def loadFormData (fields : List FormField) (storage : Option Snapshot) : List FormField :=
  match storage with
  | none => fields
  | some formData => fields.map (restoreField formData)

/-- `clearFormStorage` (src/main.js lines 307-309):
`localStorage.removeItem(STORAGE_KEY)`. -/
def clearFormStorage (_storage : Option Snapshot) : Option Snapshot := none

/-! ## Form submission (src/main.js lines 204-262) -/

/-- Outcome of the awaited `fetch`: either a response carrying an HTTP
status, or a network-level rejection of the promise. -/
inductive FetchOutcome where
  | response (status : Nat)
  | networkError
deriving DecidableEq, Repr

/-- `response.ok`: status in the inclusive range 200-299. -/
def responseOk (status : Nat) : Prop := 200 ≤ status ∧ status ≤ 299

instance (status : Nat) : Decidable (responseOk status) := by
  unfold responseOk
  infer_instance

/-- The request `submitForm` issues (src/main.js lines 214-220): the
form's `action` URL, a hard-coded `POST` method, the `FormData`
serialization of the form's fields as body (which `fetch` transmits as
`multipart/form-data`), and an `Accept: application/json` header. -/
structure Request where
  url : String
  method : String
  body : List (String × String)
  contentType : String
  accept : String
deriving DecidableEq, Repr

/-- The page state `submitForm` and `showFormMessage` read and write: the
form's fields and declared attributes, the stored snapshot, the submit
button, and the two feedback regions. -/
structure SubmitState where
  formAction : String
  formMethod : String
  fields : List FormField
  storage : Option Snapshot
  buttonText : String
  buttonDisabled : Bool
  successShown : Bool
  successText : String
  errorShown : Bool
  errorText : String
deriving DecidableEq, Repr

/-- `showFormMessage` (src/main.js lines 240-262): hide both regions
first, then show the one matching `type` with the given message. -/
def showFormMessage (st : SubmitState) (type : String) (message : String) : SubmitState :=
  let st0 := { st with successShown := false, errorShown := false }
  if type = "success" then
    { st0 with successText := message, successShown := true }
  else
    { st0 with errorText := message, errorShown := true }

/-- An apostrophe character, for embedding the quoted message text. -/
def apostrophe : Char := Char.ofNat 39

/-- The success message of src/main.js line 223. -/
def successMessage : String :=
  "Thank you! We" ++ String.singleton apostrophe ++ "ll get back to you within 24 hours."

/-- The failure message of src/main.js line 232. -/
def failureMessage : String :=
  "Something went wrong. Please try again or email us directly."

/-- `contactForm.reset()` on one field: restore the default value. -/
def resetField (f : FormField) : FormField := { f with value := f.defaultValue }

/-- The button state set before the `fetch` (src/main.js lines 210-211). -/
def submitStart (st : SubmitState) : SubmitState :=
  { st with buttonText := "Sending...", buttonDisabled := true }

/-- `submitForm` (src/main.js lines 204-238) as a function of the fetch
outcome: saves the original button label, enters the in-flight button
state, issues the request, then on `response.ok` shows the success
message, resets the form and clears storage; on any other status (the
thrown error is caught by the same `catch`) or a network rejection shows
the failure message; the `finally` block restores the label and enables
the button unconditionally. -/
def submitForm (st : SubmitState) (outcome : FetchOutcome) : SubmitState × Request :=
  let originalText := st.buttonText
  let st1 := submitStart st
  let req : Request :=
    { url := st1.formAction
      method := "POST"
      body := st1.fields.map (fun f => (f.name, f.value))
      contentType := "multipart/form-data"
      accept := "application/json" }
  let st2 :=
    match outcome with
    | FetchOutcome.response status =>
        if responseOk status then
          let stA := showFormMessage st1 "success" successMessage
          let stB := { stA with fields := stA.fields.map resetField }
          { stB with storage := clearFormStorage stB.storage }
        else
          showFormMessage st1 "error" failureMessage
    | FetchOutcome.networkError =>
        showFormMessage st1 "error" failureMessage
  ({ st2 with buttonText := originalText, buttonDisabled := false }, req)

/-! ## Mobile navigation (src/main.js lines 63-118) -/

/-- The state the mobile-menu handlers read and write: whether `navMenu`
has the `nav__menu--open` class, and the `aria-expanded` attribute of
`navToggle`. -/
structure NavState where
  menuOpen : Bool
  ariaExpanded : String
deriving DecidableEq, Repr

/-- `openMobileNav` (src/main.js lines 98-107). -/
def openMobileNav (s : NavState) : NavState :=
  { s with menuOpen := true, ariaExpanded := "true" }

/-- `closeMobileNav` (src/main.js lines 109-118). -/
def closeMobileNav (s : NavState) : NavState :=
  { s with menuOpen := false, ariaExpanded := "false" }

/-- The events the four listeners of `initMobileNavigation` react to: a
click on the toggle, a document click (with whether the click target lies
inside the toggle and inside the menu), a keydown, and a window resize
reporting the new `innerWidth`. -/
inductive NavEvent where
  | toggleClick
  | documentClick (onToggle onMenu : Bool)
  | keydown (key : String)
  | resize (innerWidth : Nat)
deriving DecidableEq, Repr

/-- The four handlers of `initMobileNavigation` (src/main.js lines
66-95): toggle-click flips between open and closed; a document click
closes unless the target is inside the toggle or the menu; Escape closes;
a resize to width above 768 closes. -/
def navStep (s : NavState) (e : NavEvent) : NavState :=
  match e with
  | NavEvent.toggleClick => if s.menuOpen then closeMobileNav s else openMobileNav s
  | NavEvent.documentClick onToggle onMenu =>
      if onToggle = false ∧ onMenu = false then closeMobileNav s else s
  | NavEvent.keydown key => if key = "Escape" then closeMobileNav s else s
  | NavEvent.resize innerWidth => if innerWidth > 768 then closeMobileNav s else s

/-- The initial menu state: closed, with the markup's
`aria-expanded="false"` on the toggle. -/
def navInit : NavState := ⟨false, "false"⟩

/-- Running a sequence of events from the initial state. -/
def navRun (events : List NavEvent) : NavState :=
  events.foldl navStep navInit

/-- The accessibility agreement the spec demands: the `aria-expanded`
attribute reads `"true"` exactly when the menu is open. -/
def ariaOk (s : NavState) : Prop :=
  s.ariaExpanded = (if s.menuOpen then "true" else "false")

/-- A concrete page state whose form declares `method="GET"`, exhibiting
that `submitForm` ignores the declared method. -/
def exampleState : SubmitState :=
  { formAction := "https://example.com/contact"
    formMethod := "GET"
    fields := [⟨"name", "Alice", true, "text", "INPUT", ""⟩]
    storage := none
    buttonText := "Send Message"
    buttonDisabled := false
    successShown := false
    successText := ""
    errorShown := false
    errorText := "" }

/-- The two contact-form fields of the round-trip example, filled in. -/
def filledFields : List FormField :=
  [⟨"name", "Alice", true, "text", "INPUT", ""⟩,
   ⟨"email", "a@b.com", true, "email", "INPUT", ""⟩]

/-- The same two fields as they stand on a fresh page load (empty). -/
def blankFields : List FormField :=
  [⟨"name", "", true, "text", "INPUT", ""⟩,
   ⟨"email", "", true, "email", "INPUT", ""⟩]

/-! ## Helper lemmas -/

/-- `validateField` unfolded to its three sequential overwriting checks
(the later checks, evaluated later, win). -/
lemma validateField_eq (f : FormField) :
    validateField f =
      (if f.tagName = "TEXTAREA" ∧ jsTrim f.value ≠ "" ∧ (jsTrim f.value).length < 10 then
        (⟨false, "Please provide more details (at least 10 characters)."⟩ : ValidationResult)
      else if f.type = "email" ∧ jsTrim f.value ≠ "" ∧ emailRegexTest (jsTrim f.value) = false then
        (⟨false, "Please enter a valid email address."⟩ : ValidationResult)
      else if f.required = true ∧ jsTrim f.value = "" then
        (⟨false, "This field is required."⟩ : ValidationResult)
      else ⟨true, ""⟩) := rfl

/-- A field is reported valid exactly when its error message is empty. -/
lemma validateField_valid_iff (f : FormField) :
    (validateField f).isValid = true ↔ (validateField f).errorMessage = "" := by
  rw [validateField_eq]
  split_ifs <;> simp

/-- An invalid field carries a nonempty message. -/
lemma validateField_invalid_msg_ne (f : FormField)
    (h : (validateField f).isValid = false) : (validateField f).errorMessage ≠ "" := by
  intro hmsg
  have := (validateField_valid_iff f).mpr hmsg
  simp [this] at h

/-- The accumulator-passing shape of `validateForm`'s forEach. -/
lemma validateForm_foldl (fields : List FormField) :
    ∀ (b : Bool) (msgs : List String),
      fields.foldl
          (fun acc field =>
            ((if (validateField field).isValid then acc.1 else false),
             acc.2 ++ [displayedMessage field]))
          (b, msgs)
        = (b && fields.all (fun f => (validateField f).isValid),
           msgs ++ fields.map displayedMessage) := by
  induction fields with
  | nil => intro b msgs; simp
  | cons f fs ih =>
      intro b msgs
      have hstep : (if (validateField f).isValid then b else false)
          = (b && (validateField f).isValid) := by
        cases h : (validateField f).isValid <;> simp [h]
      simp only [List.foldl_cons, ih, hstep, List.all_cons, List.map_cons,
        Bool.and_assoc, List.append_assoc, List.singleton_append]

/-- `aria-expanded` agreement is preserved by every handler. -/
lemma ariaOk_navStep (s : NavState) (e : NavEvent) (h : ariaOk s) :
    ariaOk (navStep s e) := by
  cases e <;> simp only [navStep] <;> split_ifs <;>
    simp_all [ariaOk, openMobileNav, closeMobileNav]

/-- `aria-expanded` agreement holds after any event sequence from a
consistent start. -/
lemma ariaOk_foldl (events : List NavEvent) :
    ∀ s : NavState, ariaOk s → ariaOk (events.foldl navStep s) := by
  induction events with
  | nil => intro s h; simpa using h
  | cons e es ih => intro s h; exact ih (navStep s e) (ariaOk_navStep s e h)

/-- Reading back the key just assigned gives the assigned value. -/
lemma objGet_objSet_self (o : List (String × String)) (k v : String) :
    objGet (objSet o k v) k = some v := by
  induction o with
  | nil => simp [objSet, objGet]
  | cons p rest ih =>
      by_cases h : p.1 = k
      · simp [objSet, h, objGet]
      · simp [objSet, h, objGet, ih]

/-- Assignment to one key leaves reads of other keys unchanged. -/
lemma objGet_objSet_other (o : List (String × String)) (k v k' : String)
    (h : k' ≠ k) : objGet (objSet o k v) k' = objGet o k' := by
  induction o with
  | nil => simp [objSet, objGet, Ne.symm h]
  | cons p rest ih =>
      by_cases hp : p.1 = k
      · subst hp
        simp [objSet, objGet, Ne.symm h]
      · simp [objSet, hp, objGet, ih]

/-- Every entry of an assigned object is an old entry or the new pair. -/
lemma mem_objSet (o : List (String × String)) (k v : String)
    (p : String × String) (h : p ∈ objSet o k v) : p ∈ o ∨ p = (k, v) := by
  induction o with
  | nil => simp [objSet] at h; simp [h]
  | cons q rest ih =>
      by_cases hq : q.1 = k
      · simp [objSet, hq] at h
        rcases h with h | h
        · right; simp [h]
        · left; simp [h]
      · simp [objSet, hq] at h
        rcases h with h | h
        · left; simp [h]
        · rcases ih h with h2 | h2
          · left; simp [h2]
          · right; exact h2

/-- Iterating `saveStep` over fields that either have another name or an
empty trimmed value does not change what the given key maps to. -/
lemma foldl_saveStep_objGet_skip (fields : List FormField) :
    ∀ (acc : Snapshot) (k : String),
      (∀ f ∈ fields, f.name ≠ k ∨ jsTrim f.value = "") →
      objGet (fields.foldl saveStep acc) k = objGet acc k := by
  induction fields with
  | nil => intro acc k _; rfl
  | cons f fs ih =>
      intro acc k h
      have hf := h f (by simp)
      have hrest : ∀ g ∈ fs, g.name ≠ k ∨ jsTrim g.value = "" := by
        intro g hg; exact h g (by simp [hg])
      rw [List.foldl_cons, ih (saveStep acc f) k hrest]
      rcases hf with hname | hemp
      · by_cases htrim : jsTrim f.value = ""
        · simp [saveStep, htrim]
        · simp [saveStep, htrim, objGet_objSet_other _ _ _ _ (Ne.symm hname)]
      · simp [saveStep, hemp]

/-- Iterating `saveStep` preserves the invariant that every stored value
has a nonempty trim. -/
lemma foldl_saveStep_values (fields : List FormField) :
    ∀ acc : Snapshot, (∀ p ∈ acc, jsTrim p.2 ≠ "") →
      ∀ p ∈ fields.foldl saveStep acc, jsTrim p.2 ≠ "" := by
  induction fields with
  | nil => intro acc h; simpa using h
  | cons f fs ih =>
      intro acc h
      apply ih
      intro p hp
      by_cases htrim : jsTrim f.value = ""
      · simp [saveStep, htrim] at hp
        exact h p hp
      · simp [saveStep, htrim] at hp
        rcases mem_objSet _ _ _ _ hp with hmem | heq
        · exact h p hmem
        · simpa [heq] using htrim

/-- Fields that are all blank contribute nothing to the fold. -/
lemma foldl_saveStep_all_empty (fields : List FormField)
    (h : ∀ f ∈ fields, jsTrim f.value = "") :
    ∀ acc : Snapshot, fields.foldl saveStep acc = acc := by
  induction fields with
  | nil => intro acc; rfl
  | cons f fs ih =>
      intro acc
      have hf := h f (by simp)
      rw [List.foldl_cons]
      have : saveStep acc f = acc := by simp [saveStep, hf]
      rw [this]
      exact ih (fun g hg => h g (by simp [hg])) acc

/-- With pairwise-distinct field names, a field with nonempty trimmed
value is stored under its name with its raw value. -/
lemma computeFormData_objGet_mem (fields : List FormField) (f : FormField)
    (hmem : f ∈ fields) (hnd : (fields.map FormField.name).Nodup)
    (hne : jsTrim f.value ≠ "") :
    objGet (computeFormData fields) f.name = some f.value := by
  obtain ⟨l1, l2, rfl⟩ := List.append_of_mem hmem
  have hl2 : ∀ g ∈ l2, g.name ≠ f.name := by
    intro g hg
    have : (l1.map FormField.name ++ f.name :: l2.map FormField.name).Nodup := by
      simpa using hnd
    have hnot : f.name ∉ l2.map FormField.name :=
      fun hin => ((List.nodup_append.mp this).2.1.not_mem
        (by simpa using hin) : False)
    intro heq
    exact hnot (by simpa [heq] using List.mem_map_of_mem FormField.name hg)
  unfold computeFormData
  rw [List.foldl_append, List.foldl_cons]
  rw [foldl_saveStep_objGet_skip l2 _ f.name (fun g hg => Or.inl (hl2 g hg))]
  simp [saveStep, hne, objGet_objSet_self]

/-- With pairwise-distinct field names, a field whose trimmed value is
empty has no entry in the recomputed object. -/
lemma computeFormData_objGet_none (fields : List FormField) (f : FormField)
    (hmem : f ∈ fields) (hnd : (fields.map FormField.name).Nodup)
    (hemp : jsTrim f.value = "") :
    objGet (computeFormData fields) f.name = none := by
  have hall : ∀ g ∈ fields, g.name ≠ f.name ∨ jsTrim g.value = "" := by
    intro g hg
    by_cases heq : g.name = f.name
    · right
      have := List.inj_on_of_nodup_map hnd hg hmem heq
      rw [this]; exact hemp
    · left; exact heq
  unfold computeFormData
  rw [foldl_saveStep_objGet_skip fields [] f.name hall]
  rfl

/-- Soundness of `breakAt`: a successful split reassembles the input, and
the prefix avoids the split character. -/
lemma breakAt_some_spec (c : Char) :
    ∀ (l p q : List Char), breakAt c l = some (p, q) →
      l = p ++ c :: q ∧ c ∉ p := by
  intro l
  induction l with
  | nil => intro p q h; simp [breakAt] at h
  | cons x xs ih =>
      intro p q h
      by_cases hx : x = c
      · subst hx
        rw [breakAt, if_pos rfl] at h
        simp only [Option.some.injEq, Prod.mk.injEq] at h
        obtain ⟨rfl, rfl⟩ := h
        simp
      · rw [breakAt, if_neg hx] at h
        cases hb : breakAt c xs with
        | none => rw [hb] at h; simp at h
        | some pr =>
            rw [hb] at h
            simp only [Option.map_some', Option.some.injEq, Prod.mk.injEq] at h
            obtain ⟨rfl, rfl⟩ := h
            obtain ⟨hxs, hnot⟩ := ih pr.1 pr.2 hb
            constructor
            · simp [hxs]
            · simp only [List.mem_cons, not_or]
              exact ⟨fun hc => hx hc.symm, hnot⟩

/-- Completeness of `breakAt`: splitting at the first occurrence. -/
lemma breakAt_append (c : Char) (q : List Char) :
    ∀ p : List Char, c ∉ p → breakAt c (p ++ c :: q) = some (p, q) := by
  intro p
  induction p with
  | nil => intro _; simp [breakAt]
  | cons x xs ih =>
      intro h
      have hx : ¬(x = c) := by
        intro hxc; exact h (by simp [hxc])
      have hxs : c ∉ xs := fun hc => h (by simp [hc])
      simp [breakAt, hx, ih hxs]

/-- `hasInnerDot` holds exactly when the list splits around a dot with at
least one character on each side. -/
lemma hasInnerDot_iff :
    ∀ l : List Char, hasInnerDot l = true ↔
      ∃ b c : List Char, l = b ++ '.' :: c ∧ b ≠ [] ∧ c ≠ [] := by
  intro l
  induction l with
  | nil =>
      simp only [hasInnerDot]
      constructor
      · intro h; simp at h
      · rintro ⟨b, c, h, hb, hc⟩
        exact absurd h (by simp [List.append_ne_nil_of_right_ne_nil])
  | cons x xs ih =>
      cases xs with
      | nil =>
          simp only [hasInnerDot]
          constructor
          · intro h; simp at h
          · rintro ⟨b, c, h, hb, hc⟩
            cases b with
            | nil => exact absurd rfl hb
            | cons bb bs =>
                simp only [List.cons_append, List.cons.injEq] at h
                obtain ⟨-, h2⟩ := h
                exact absurd h2.symm (by simp)
      | cons y rest =>
          constructor
          · intro h
            simp only [hasInnerDot, Bool.or_eq_true, Bool.and_eq_true,
              decide_eq_true_eq, ne_eq] at h
            rcases h with ⟨hy, hr⟩ | h2
            · refine ⟨[x], rest, ?_, by simp, hr⟩
              simp [hy]
            · obtain ⟨b, c, hsplit, hb, hc⟩ := ih.mp h2
              exact ⟨x :: b, c, by simp [hsplit], by simp, hc⟩
          · rintro ⟨b, c, hsplit, hb, hc⟩
            cases b with
            | nil => exact absurd rfl hb
            | cons bb bs =>
                simp only [List.cons_append, List.cons.injEq] at hsplit
                obtain ⟨rfl, htail⟩ := hsplit
                simp only [hasInnerDot, Bool.or_eq_true, Bool.and_eq_true,
                  decide_eq_true_eq, ne_eq]
                cases bs with
                | nil =>
                    simp only [List.nil_append, List.cons.injEq] at htail
                    obtain ⟨rfl, rfl⟩ := htail
                    exact Or.inl ⟨rfl, hc⟩
                | cons cb cbs =>
                    right
                    exact ih.mpr ⟨cb :: cbs, c, by simpa using htail, by simp, hc⟩

/-- The characters of the regex class `[^\s@]` are not `@`. -/
lemma okChar_ne_at (a : List Char) (h : ∀ ch ∈ a, okChar ch = true) :
    '@' ∉ a := by
  intro hmem
  have := h '@' hmem
  simp [okChar] at this

/-- The email regex of src/main.js line 161 accepts exactly the
`localpart@domain.tld` shape the spec describes. -/
lemma emailRegexTest_iff_shape (s : String) :
    emailRegexTest s = true ↔ IsEmailShape s := by
  constructor
  · intro h
    unfold emailRegexTest at h
    cases hb : breakAt '@' s.data with
    | none => rw [hb] at h; simp at h
    | some pr =>
        rw [hb] at h
        obtain ⟨localPart, domain⟩ := pr
        simp only [ne_eq, Bool.and_eq_true, decide_eq_true_eq, List.all_eq_true] at h
        obtain ⟨⟨⟨hne, hlocal⟩, hdomain⟩, hdot⟩ := h
        obtain ⟨hsplit, -⟩ := breakAt_some_spec '@' s.data localPart domain hb
        obtain ⟨b, c, hd, hbne, hcne⟩ := (hasInnerDot_iff domain).mp hdot
        refine ⟨localPart, b, c, hne, hbne, hcne, hlocal, ?_, ?_, ?_⟩
        · intro ch hch; exact hdomain ch (by simp [hd, hch])
        · intro ch hch; exact hdomain ch (by simp [hd, hch])
        · rw [hsplit, hd]
  · rintro ⟨a, b, c, ha, hbne, hcne, hok, hbok, hcok, hdata⟩
    unfold emailRegexTest
    have hnot : '@' ∉ a := okChar_ne_at a hok
    have hb : breakAt '@' s.data = some (a, b ++ '.' :: c) := by
      rw [hdata]; exact breakAt_append '@' (b ++ '.' :: c) a hnot
    rw [hb]
    simp only [ne_eq, Bool.and_eq_true, decide_eq_true_eq, List.all_eq_true]
    refine ⟨⟨⟨ha, hok⟩, ?_⟩, (hasInnerDot_iff _).mpr ⟨b, c, rfl, hbne, hcne⟩⟩
    intro ch hch
    rcases List.mem_append.mp hch with h1 | h1
    · exact hbok ch h1
    · rcases List.mem_cons.mp h1 with h2 | h2
      · rw [h2]; decide
      · exact hcok ch h2

/-- A save over all-blank fields writes nothing. -/
lemma saveFormData_all_empty (fields : List FormField) (storage : Option Snapshot)
    (hall : ∀ f ∈ fields, jsTrim f.value = "") :
    saveFormData fields storage = storage := by
  unfold saveFormData
  rw [show computeFormData fields = [] from foldl_saveStep_all_empty fields hall []]
  rfl

/-! ## Claims -/

/-- C1: per-field validation yields the required-rule message exactly when
the field is marked required and its trimmed value is empty; yields the
minimum-length message exactly when the field is a textarea whose trimmed
value is nonempty and shorter than 10; a field is valid exactly when the
message is empty; and a field for which no rule fires is valid with an
empty message. -/
theorem C1_validateField_rules (f : FormField) :
    (((validateField f).isValid = false ∧
        (validateField f).errorMessage = "This field is required.") ↔
      (f.required = true ∧ jsTrim f.value = "")) ∧
    (((validateField f).isValid = false ∧
        (validateField f).errorMessage
          = "Please provide more details (at least 10 characters).") ↔
      (f.tagName = "TEXTAREA" ∧ jsTrim f.value ≠ "" ∧ (jsTrim f.value).length < 10)) ∧
    ((validateField f).isValid = true ↔ (validateField f).errorMessage = "") ∧
    ((¬(f.required = true ∧ jsTrim f.value = "") ∧
      ¬(f.type = "email" ∧ jsTrim f.value ≠ "" ∧
          emailRegexTest (jsTrim f.value) = false) ∧
      ¬(f.tagName = "TEXTAREA" ∧ jsTrim f.value ≠ "" ∧ (jsTrim f.value).length < 10)) →
      validateField f = ⟨true, ""⟩) := by
  rw [validateField_eq]
  split_ifs with h3 h2 h1 <;> refine ⟨?_, ?_, ?_, ?_⟩ <;> simp_all

/-- Witness for C1: a non-required-failing, non-email, non-short field is
valid with an empty message. -/
theorem C1_witness :
    validateField ⟨"name", "Bob", true, "text", "INPUT", ""⟩ = ⟨true, ""⟩ :=
  (C1_validateField_rules ⟨"name", "Bob", true, "text", "INPUT", ""⟩).2.2.2 (by decide)

/-- C2: the email regex accepts exactly the `localpart@domain.tld` shape;
an email-type input with a nonempty trimmed value is valid exactly when
the checked value has that shape, and otherwise carries the email message;
and the spec's three examples behave as stated. -/
theorem C2_email_rule (nm dv S : String) (req : Bool) (h : jsTrim S ≠ "") :
    (∀ s : String, emailRegexTest s = true ↔ IsEmailShape s) ∧
    ((validateField ⟨nm, S, req, "email", "INPUT", dv⟩).isValid = true ↔
      IsEmailShape (jsTrim S)) ∧
    ((validateField ⟨nm, S, req, "email", "INPUT", dv⟩).isValid = false →
      (validateField ⟨nm, S, req, "email", "INPUT", dv⟩).errorMessage
        = "Please enter a valid email address.") ∧
    ((validateField ⟨"email", "a@b.com", false, "email", "INPUT", ""⟩).isValid = true) ∧
    ((validateField ⟨"email", "a@b", false, "email", "INPUT", ""⟩).isValid = false) ∧
    ((validateField ⟨"email", "not-an-email", false, "email", "INPUT", ""⟩).isValid
      = false) := by
  refine ⟨emailRegexTest_iff_shape, ?_, ?_, by decide, by decide, by decide⟩
  · rw [validateField_eq]
    cases ht : emailRegexTest (jsTrim S) with
    | true => simp [h, ht, (emailRegexTest_iff_shape _).mp ht]
    | false =>
        have hns : ¬ IsEmailShape (jsTrim S) := by
          intro hs
          rw [(emailRegexTest_iff_shape _).mpr hs] at ht
          exact Bool.noConfusion ht
        simp [h, ht, hns]
  · rw [validateField_eq]
    cases ht : emailRegexTest (jsTrim S) with
    | true => simp [h, ht]
    | false => simp [h, ht]

/-- Witness for C2 at the value `"a@b.com"`. -/
theorem C2_witness :
    (validateField ⟨"email", "a@b.com", true, "email", "INPUT", ""⟩).isValid = true ↔
      IsEmailShape (jsTrim "a@b.com") :=
  (C2_email_rule "email" "" "a@b.com" true (by decide)).2.1

/-- C3: whole-form validation is the conjunction of the per-field results,
evaluates every field (one displayed message per field, in order), and
when some field fails the form is invalid while every failing field keeps
its own nonempty message. -/
theorem C3_validateForm_conjunction (fields : List FormField) :
    ((validateForm fields).1 = fields.all (fun f => (validateField f).isValid)) ∧
    ((validateForm fields).2 = fields.map displayedMessage) ∧
    (∀ f ∈ fields, (validateField f).isValid = false →
      (validateForm fields).1 = false ∧
      displayedMessage f = (validateField f).errorMessage ∧
      (validateField f).errorMessage ≠ "") := by
  have hvf : validateForm fields
      = (fields.all (fun f => (validateField f).isValid),
         fields.map displayedMessage) := by
    unfold validateForm
    rw [validateForm_foldl fields true []]
    simp
  refine ⟨by rw [hvf], by rw [hvf], ?_⟩
  intro f hf hinv
  refine ⟨?_, ?_, validateField_invalid_msg_ne f hinv⟩
  · have hnot : ¬(fields.all (fun f => (validateField f).isValid) = true) := by
      simp only [List.all_eq_true]
      intro hall
      have := hall f hf
      rw [hinv] at this
      exact Bool.noConfusion this
    rw [hvf]
    exact Bool.eq_false_iff.mpr hnot
  · simp [displayedMessage, hinv]

/-- Witness for C3: a form with one required-and-empty field. -/
theorem C3_witness :
    (validateForm [⟨"name", "", true, "text", "INPUT", ""⟩]).1 = false ∧
    displayedMessage ⟨"name", "", true, "text", "INPUT", ""⟩
      = (validateField ⟨"name", "", true, "text", "INPUT", ""⟩).errorMessage ∧
    (validateField ⟨"name", "", true, "text", "INPUT", ""⟩).errorMessage ≠ "" :=
  (C3_validateForm_conjunction [⟨"name", "", true, "text", "INPUT", ""⟩]).2.2
    ⟨"name", "", true, "text", "INPUT", ""⟩ (by simp) (by decide)

/-- C4: on a network rejection or a non-2xx status, the fields and the
stored snapshot are unchanged, the generic failure message is shown, the
success message is not, and `showFormMessage` never leaves both regions
shown at once. -/
theorem C4_failure_preserves_form (st : SubmitState) (outcome : FetchOutcome)
    (h : outcome = FetchOutcome.networkError ∨
      ∃ status : Nat, outcome = FetchOutcome.response status ∧ ¬ responseOk status) :
    ((submitForm st outcome).1.fields = st.fields) ∧
    ((submitForm st outcome).1.storage = st.storage) ∧
    ((submitForm st outcome).1.errorShown = true) ∧
    ((submitForm st outcome).1.errorText = failureMessage) ∧
    ((submitForm st outcome).1.successShown = false) ∧
    (∀ (st2 : SubmitState) (t m : String),
      ¬(((showFormMessage st2 t m).successShown = true) ∧
        ((showFormMessage st2 t m).errorShown = true))) := by
  have hmx : ∀ (st2 : SubmitState) (t m : String),
      ¬(((showFormMessage st2 t m).successShown = true) ∧
        ((showFormMessage st2 t m).errorShown = true)) := by
    intro st2 t m
    unfold showFormMessage
    split_ifs <;> simp
  rcases h with rfl | ⟨status, rfl, hstatus⟩
  · exact ⟨rfl, rfl, rfl, rfl, rfl, hmx⟩
  · refine ⟨?_, ?_, ?_, ?_, ?_, hmx⟩ <;>
      simp [submitForm, submitStart, showFormMessage, hstatus]

/-- Witness for C4: a network-level failure on the example page. -/
theorem C4_witness :
    (submitForm exampleState FetchOutcome.networkError).1.errorShown = true ∧
    (submitForm exampleState FetchOutcome.networkError).1.fields = exampleState.fields :=
  ⟨(C4_failure_preserves_form exampleState FetchOutcome.networkError (Or.inl rfl)).2.2.1,
   (C4_failure_preserves_form exampleState FetchOutcome.networkError (Or.inl rfl)).1⟩

/-- C5 counterexample: the form of `exampleState` declares `method="GET"`,
yet the issued request uses POST — the request does not use the method
declared on the form. -/
theorem C5_counterexample :
    ¬((submitForm exampleState FetchOutcome.networkError).2.method
        = exampleState.formMethod) := by decide

/-- C5 (amended): the single request goes to the form's configured action
with a hard-coded POST method — regardless of the method declared on the
form — with the multipart `FormData` serialization of the fields as body
and an `Accept: application/json` header. -/
theorem C5_request_shape (st : SubmitState) (outcome : FetchOutcome) :
    (submitForm st outcome).2 =
      { url := st.formAction
        method := "POST"
        body := st.fields.map (fun f => (f.name, f.value))
        contentType := "multipart/form-data"
        accept := "application/json" } := rfl

/-- C6: while in flight the submit control is disabled with the
in-progress label, and after any outcome the original label is restored
and the control re-enabled. -/
theorem C6_button_lifecycle (st : SubmitState) (outcome : FetchOutcome) :
    ((submitStart st).buttonDisabled = true) ∧
    ((submitStart st).buttonText = "Sending...") ∧
    ((submitForm st outcome).1.buttonText = st.buttonText) ∧
    ((submitForm st outcome).1.buttonDisabled = false) ∧
    (st.buttonDisabled = false →
      (submitForm st outcome).1.buttonDisabled = st.buttonDisabled) := by
  refine ⟨rfl, rfl, rfl, rfl, ?_⟩
  intro h
  rw [h]
  exact rfl

/-- Witness for C6: the example page's enabled button is restored to its
original enabled state after a failed submission. -/
theorem C6_witness :
    exampleState.buttonDisabled = false ∧
    (submitForm exampleState FetchOutcome.networkError).1.buttonDisabled
      = exampleState.buttonDisabled :=
  ⟨rfl, (C6_button_lifecycle exampleState FetchOutcome.networkError).2.2.2.2 rfl⟩

/-- C7: every saved entry has a value with nonempty trim; a field whose
trimmed value is empty has no entry under its name; and when every field
is blank the save leaves the previous stored snapshot in place. -/
theorem C7_snapshot_never_blank (fields : List FormField) (storage : Option Snapshot)
    (hnd : (fields.map FormField.name).Nodup) :
    (∀ p ∈ computeFormData fields, jsTrim p.2 ≠ "") ∧
    (∀ f ∈ fields, jsTrim f.value = "" →
      objGet (computeFormData fields) f.name = none) ∧
    ((∀ f ∈ fields, jsTrim f.value = "") → saveFormData fields storage = storage) := by
  refine ⟨?_, ?_, ?_⟩
  · exact foldl_saveStep_values fields [] (by simp)
  · intro f hf hemp
    exact computeFormData_objGet_none fields f hf hnd hemp
  · intro hall
    exact saveFormData_all_empty fields storage hall

/-- Witness for C7: a whitespace-only field does not overwrite the
previous snapshot. -/
theorem C7_witness :
    saveFormData [⟨"name", "  ", true, "text", "INPUT", ""⟩] (some [("name", "Bob")])
      = some [("name", "Bob")] :=
  (C7_snapshot_never_blank [⟨"name", "  ", true, "text", "INPUT", ""⟩]
      (some [("name", "Bob")]) (by simp)).2.2 (by decide)

/-- C8: saving the filled name/email pair and reloading restores both
values; saving all-blank fields leaves prior storage untouched; a
successful (2xx) submission clears storage; and a reload with nothing
stored restores nothing. -/
theorem C8_round_trip :
    (loadFormData blankFields (saveFormData filledFields none) = filledFields) ∧
    (∀ (fields : List FormField) (storage : Option Snapshot),
      (∀ f ∈ fields, jsTrim f.value = "") → saveFormData fields storage = storage) ∧
    (∀ (st : SubmitState) (status : Nat), responseOk status →
      (submitForm st (FetchOutcome.response status)).1.storage = none) ∧
    (∀ fields : List FormField, loadFormData fields none = fields) := by
  refine ⟨by decide, ?_, ?_, fun fields => rfl⟩
  · intro fields storage hall
    exact saveFormData_all_empty fields storage hall
  · intro st status hok
    simp [submitForm, submitStart, showFormMessage, clearFormStorage, hok]

/-- Witness for C8: the blank form does not disturb the stored snapshot,
and a 200 response clears it. -/
theorem C8_witness :
    (saveFormData blankFields (some [("name", "Bob")]) = some [("name", "Bob")]) ∧
    ((submitForm exampleState (FetchOutcome.response 200)).1.storage = none) :=
  ⟨C8_round_trip.2.1 blankFields (some [("name", "Bob")]) (by decide),
   C8_round_trip.2.2.1 exampleState 200 (by decide)⟩

/-- C9: the menu starts closed; the aria-expanded attribute agrees with
the state after every event sequence; a toggle click flips the state; an
outside click, the Escape key, and a resize above 768 force closed; and
no other event of the alphabet changes the state. -/
theorem C9_menu_state_machine :
    (navInit.menuOpen = false) ∧
    (∀ events : List NavEvent, ariaOk (navRun events)) ∧
    (∀ s : NavState, (navStep s NavEvent.toggleClick).menuOpen = !s.menuOpen) ∧
    (∀ s : NavState, navStep s (NavEvent.documentClick false false) = closeMobileNav s) ∧
    (∀ (s : NavState) (t m : Bool), t = true ∨ m = true →
      navStep s (NavEvent.documentClick t m) = s) ∧
    (∀ s : NavState, navStep s (NavEvent.keydown "Escape") = closeMobileNav s) ∧
    (∀ (s : NavState) (k : String), k ≠ "Escape" → navStep s (NavEvent.keydown k) = s) ∧
    (∀ (s : NavState) (w : Nat), w > 768 → navStep s (NavEvent.resize w) = closeMobileNav s) ∧
    (∀ (s : NavState) (w : Nat), w ≤ 768 → navStep s (NavEvent.resize w) = s) := by
  refine ⟨rfl, ?_, ?_, ?_, ?_, ?_, ?_, ?_, ?_⟩
  · intro events
    exact ariaOk_foldl events navInit rfl
  · intro s
    cases h : s.menuOpen <;> simp [navStep, h, openMobileNav, closeMobileNav]
  · intro s
    simp [navStep]
  · intro s t m h
    rcases h with rfl | rfl <;> simp [navStep]
  · intro s
    simp [navStep]
  · intro s k h
    simp [navStep, h]
  · intro s w h
    simp [navStep, h]
  · intro s w h
    have hnot : ¬ (w > 768) := by omega
    simp [navStep, hnot]

/-- Witness for C9: a keydown other than Escape leaves the state alone. -/
theorem C9_witness : navStep navInit (NavEvent.keydown "a") = navInit :=
  C9_menu_state_machine.2.2.2.2.2.2.1 navInit "a" (by decide)

/-- C10: with distinct field names, a field with nonempty trimmed value is
stored under its name with the raw, untrimmed value, and a restore writes
exactly that raw value back; a field whose trimmed value is empty is
omitted entirely and a restore leaves it alone. -/
theorem C10_raw_values (fields : List FormField)
    (hnd : (fields.map FormField.name).Nodup) :
    (∀ f ∈ fields, jsTrim f.value ≠ "" →
      objGet (computeFormData fields) f.name = some f.value ∧
      (∀ g : FormField, g.name = f.name →
        (restoreField (computeFormData fields) g).value = f.value)) ∧
    (∀ f ∈ fields, jsTrim f.value = "" →
      objGet (computeFormData fields) f.name = none ∧
      (∀ g : FormField, g.name = f.name →
        restoreField (computeFormData fields) g = g)) := by
  constructor
  · intro f hf hne
    have hget := computeFormData_objGet_mem fields f hf hnd hne
    refine ⟨hget, ?_⟩
    intro g hg
    unfold restoreField
    rw [hg, hget]
    have hv : f.value ≠ "" := by
      intro hv
      rw [hv] at hne
      exact hne rfl
    simp [hv]
  · intro f hf hemp
    have hget := computeFormData_objGet_none fields f hf hnd hemp
    refine ⟨hget, ?_⟩
    intro g hg
    unfold restoreField
    rw [hg, hget]

/-- Witness for C10: a whitespace-padded message round-trips verbatim. -/
theorem C10_witness :
    objGet (computeFormData [⟨"msg", "  hi there  ", false, "textarea", "TEXTAREA", ""⟩])
        "msg" = some "  hi there  " :=
  ((C10_raw_values [⟨"msg", "  hi there  ", false, "textarea", "TEXTAREA", ""⟩]
      (by simp)).1
    ⟨"msg", "  hi there  ", false, "textarea", "TEXTAREA", ""⟩ (by simp) (by decide)).1
